import Mathlib

/-!
# Verification of the bzz gateway core (upload coordinator and manifest/feed resolver)

Shallow embedding of `pkg/api/bzz.go`: the download resolution pipeline
(`bzzDownloadHandler` / `serveReference` / `manifestFeed` / `downloadHandler`)
and the file upload coordinator (`fileUploadHandler`).

External collaborators (the manifest trie store, the feed lookup factory, the
chunk joiner/pipeline, the tag service, the postage admission gate) are modelled
as environment records of pure functions: each Go call into a collaborator
becomes a field lookup returning `Except`/`Option`, so every control path of the
handlers is represented.  Machine strings are Lean `String`s with the relevant
Go `strings`/`path` library functions re-implemented over their character lists.
-/

namespace Bee

/-! ## Go string helpers (`strings.HasPrefix/HasSuffix/TrimRight`) -/

/-- Character predicate used by the trailing-slash trimming and counting. -/
def slashP : Char → Bool := fun c => decide (c = '/')

/-- Here `listStartsWith pre l` is Go's byte-wise prefix test (`strings.HasPrefix`). -/
def listStartsWith : List Char → List Char → Bool
  | [], _ => true
  | _ :: _, [] => false
  | a :: as, b :: bs => if a = b then listStartsWith as bs else false

/-- Go `strings.HasPrefix s pre`. -/
def strStartsWith (s pre : String) : Bool := listStartsWith pre.data s.data

/-- Go `strings.HasSuffix s suf`. -/
def strEndsWith (s suf : String) : Bool := listStartsWith suf.data.reverse s.data.reverse

/-- Go `strings.TrimRight s "/"`: remove every trailing `'/'`. -/
def trimRightSlashes (l : List Char) : List Char := (l.reverse.dropWhile slashP).reverse

/-- Length of the run of `'/'` characters at the end of a string. -/
def countTrailingSlashes (s : String) : Nat := (s.data.reverse.takeWhile slashP).length

/-! ## Go `path.Clean` / `path.Join`

`path.Clean` is implemented by lexical component processing: split on `'/'`,
drop empty and `"."` components, let `".."` pop the previous component (at the
root it vanishes; in a relative path with nothing left to pop it is kept). -/

/-- Split a character list on `'/'` (accumulator holds the current component
reversed). -/
def splitSlashAux : List Char → List Char → List (List Char)
  | [], acc => [acc.reverse]
  | c :: rest, acc =>
    if c = '/' then acc.reverse :: splitSlashAux rest []
    else splitSlashAux rest (c :: acc)

/-- Process cleaned components; `acc` is the output stack (top first). -/
def cleanFold (rooted : Bool) : List (List Char) → List (List Char) → List (List Char)
  | acc, [] => acc
  | acc, c :: cs =>
    if c = [] ∨ c = ['.'] then cleanFold rooted acc cs
    else if c = ['.', '.'] then
      match acc with
      | [] => if rooted then cleanFold rooted [] cs else cleanFold rooted [['.', '.']] cs
      | top :: rest =>
        if top = ['.', '.'] then cleanFold rooted (c :: acc) cs else cleanFold rooted rest cs
    else cleanFold rooted (c :: acc) cs

/-- Go `path.Clean`. -/
def cleanPath (p : String) : String :=
  if p.data = [] then "."
  else
    let rooted : Bool := decide (p.data.head? = some '/')
    let comps := (cleanFold rooted [] (splitSlashAux p.data [])).reverse
    match comps with
    | [] => if rooted then "/" else "."
    | _ :: _ => String.mk ((if rooted then ['/'] else []) ++ List.intercalate ['/'] comps)

/-- Go `path.Join(a, b)`: empty elements are skipped, the rest are glued with
`'/'` and the result is `Clean`ed; `Join("", "")` is `""`. -/
def pathJoin (a b : String) : String :=
  if a = "" ∧ b = "" then ""
  else cleanPath (if a = "" then b else if b = "" then a else a ++ "/" ++ b)

/-! ## Hex encoding/decoding (`encoding/hex`, `swarm.Address.String`) -/

/-- The lowercase hex digit for a value `< 16` (Go `encoding/hex` alphabet). -/
def hexDigit (n : Nat) : Char :=
  if n < 10 then Char.ofNat ('0'.toNat + n) else Char.ofNat ('a'.toNat + (n - 10))

/-- Go `hex.EncodeToString`: two lowercase digits per byte (bytes are reduced
mod 256 since the embedding stores them as `Nat`). -/
def hexEncodeBytes (bs : List Nat) : List Char :=
  bs.foldr (fun b acc => hexDigit (b % 256 / 16) :: hexDigit (b % 16) :: acc) []

/-- Numeric value of a hex digit character, if any (Go `hex.Decode` accepts
both cases). -/
def hexDigitVal (c : Char) : Option Nat :=
  if '0' ≤ c ∧ c ≤ '9' then some (c.toNat - '0'.toNat)
  else if 'a' ≤ c ∧ c ≤ 'f' then some (c.toNat - 'a'.toNat + 10)
  else if 'A' ≤ c ∧ c ≤ 'F' then some (c.toNat - 'A'.toNat + 10)
  else none

/-- Go `hex.DecodeString` over characters: fails on odd length or a non-hex
digit. -/
def hexDecodeList : List Char → Option (List Nat)
  | [] => some []
  | [_] => none
  | c1 :: c2 :: rest =>
    match hexDigitVal c1, hexDigitVal c2, hexDecodeList rest with
    | some h, some lo, some bs => some ((h * 16 + lo) :: bs)
    | _, _, _ => none

/-- Go `hex.DecodeString`. -/
def hexDecodeStr (s : String) : Option (List Nat) := hexDecodeList s.data

/-- Go `fmt.Sprintf("%q", s)` for a plain hex string: wrap in double quotes. -/
def quoteStr (s : String) : String := "\"" ++ s ++ "\""

/-- Go `strings.ToLower` (ASCII suffices for the feed type strings). -/
def toLowerStr (s : String) : String := String.mk (s.data.map Char.toLower)

/-! ## Data model -/

/-- A swarm content address (`swarm.Address`): a byte string, hex for
transport. -/
structure Reference where
  bytes : List Nat
deriving DecidableEq, Repr

/-- Go `swarm.Address.String()`: lowercase hex of the bytes. -/
def Reference.toHex (r : Reference) : String := String.mk (hexEncodeBytes r.bytes)

/-- Go `swarm.ZeroAddress` (the zero-value address, no bytes). -/
def zeroAddress : Reference := ⟨[]⟩

/-- Failure kind of a manifest lookup: `manifest.ErrNotFound` versus anything
else (the code distinguishes exactly these two with `errors.Is`). -/
inductive LookupErr where
  | notFound
  | other
deriving DecidableEq, Repr

/-- A manifest entry (`manifest.NewEntry`): a target reference plus string
metadata. -/
structure Entry where
  reference : Reference
  metadata : List (String × String)
deriving DecidableEq, Repr

/-- First value bound to `k` in an association list (Go map lookup with the
`ok` flag). -/
def metaLookup : List (String × String) → String → Option String
  | [], _ => none
  | (k', v) :: rest, k => if k' = k then some v else metaLookup rest k

/-- Go map indexing `meta[k]`: the zero value `""` when the key is absent. -/
def metaGet (m : List (String × String)) (k : String) : String := (metaLookup m k).getD ""

/-- The read-only view of a loaded manifest (`manifest.Interface`): exact
lookup and directory-prefix existence, both fallible. -/
structure ManifestI where
  lookup : String → Except LookupErr Entry
  hasPrefixFn : String → Except Unit Bool

/-- Go `feeds.Type`: the two feed kinds. -/
inductive FeedType where
  | sequence
  | epoch
deriving DecidableEq, Repr

/-- A feed identity (`feeds.New(topic, owner)`). -/
structure FeedIdentity where
  topic : List Nat
  owner : List Nat
deriving DecidableEq, Repr

/-- A feed update chunk, uninterpreted by the handler. -/
abbrev Chunk := List Nat

/-- A feed index cursor, uninterpreted by the handler (`feeds.Index`). -/
abbrev Cursor := List Nat

/-- A constructed feed lookup (`feeds.Lookup`); `atResult` models
`l.At(ctx, now, 0)` returning `(chunk, cursor, _, error)` where a `nil` chunk
is `none`. -/
structure FeedLookupO where
  atResult : Except Unit (Option Chunk × Cursor)

/-- Failure kind of the joiner (`storage.ErrNotFound` versus anything else). -/
inductive JoinErr where
  | notFound
  | other
deriving DecidableEq, Repr

/-- Pure environment for one download request: the external collaborators
consumed by `serveReference`/`downloadHandler`.

* `loadManifest` — `manifest.NewDefaultManifestReference(address, ls)`
  (`none` on error);
* `newLookup` — `s.feedFactory.NewLookup(t, f)`;
* `parseFeedUpdate` — decodes a feed update chunk into
  `(targetReference, timestamp)` (repository code outside `src/`; modelled
  from the spec as an abstract fallible decoder);
* `marshalBinary` — `cur.MarshalBinary()` on the feed index cursor;
* `joinerOpen` — `joiner.New(ctx, storer, reference)` returning the span
  length. -/
structure Env where
  loadManifest : Reference → Option ManifestI
  newLookup : FeedType → FeedIdentity → Except Unit FeedLookupO
  parseFeedUpdate : Chunk → Except Unit (Reference × Int)
  marshalBinary : Cursor → Except Unit (List Nat)
  joinerOpen : Reference → Except JoinErr Nat

/-- The observable outcome of one download request.  Constructors follow the
`jsonhttp` responses issued by `bzz.go`; `served` carries the headers the
claims are about (content ETag and feed index header) together with the
terminal reference and content length.  Headers set on error responses and the
content-type/disposition headers are not governed by any claim and are left
out of the model. -/
inductive DResponse where
  | notFoundMsg (msg : String)
  | notFoundNil
  | internalError (msg : String)
  | redirect (location : String)
  | served (reference : Reference) (etag : Option String) (feedIndex : Option String) (length : Nat)
deriving DecidableEq, Repr

/-! ## Metadata keys

Values of the external `manifest` package constants and of the api package's
feed metadata keys (repository code outside `src/`); the claims treat them as
uninterpreted distinct keys. -/

def rootPath : String := "/"

def websiteIndexDocumentSuffixKey : String := "website-index-document"

def websiteErrorDocumentPathKey : String := "website-error-document"

def entryMetadataContentTypeKey : String := "Content-Type"

def entryMetadataFilenameKey : String := "Filename"

def feedMetadataEntryOwner : String := "swarm-feed-owner"

def feedMetadataEntryTopic : String := "swarm-feed-topic"

def feedMetadataEntryType : String := "swarm-feed-type"

/-! ## Feed detection (`manifestFeed`, bzz.go lines 506-542) -/

/-- Go `common.BytesToAddress`: keep the last 20 bytes, left-pad with zeros. -/
def bytesToAddress (b : List Nat) : List Nat :=
  let b := if b.length > 20 then b.drop (b.length - 20) else b
  List.replicate (20 - b.length) 0 ++ b

/-- Decode an optional hex metadata value: the empty string (absent key) gives
no bytes, otherwise `hex.DecodeString` must succeed. -/
def decodeHexMeta (s : String) : Except Unit (List Nat) :=
  if s = "" then Except.ok []
  else
    match hexDecodeStr s with
    | some b => Except.ok b
    | none => Except.error ()

/-- Go `feeds.Type.FromString` (external `feeds` package): case-insensitive
`"sequence"`/`"epoch"`. -/
def feedTypeFromString (s : String) : Except Unit FeedType :=
  if toLowerStr s = "sequence" then Except.ok FeedType.sequence
  else if toLowerStr s = "epoch" then Except.ok FeedType.epoch
  else Except.error ()

/-- The feed type metadata: absent means the zero value `Sequence`. -/
def feedTypeMeta (s : String) : Except Unit FeedType :=
  if s = "" then Except.ok FeedType.sequence else feedTypeFromString s

/-- Function `Service.manifestFeed` (bzz.go lines 506-542): look up the root entry
`"/"`, hex-decode its owner/topic metadata, parse the feed type, fail when
owner or topic is missing, and build a feed lookup.  All distinct Go error
values are collapsed to `Except.error ()`: the caller only tests `err == nil`. -/
def manifestFeed (env : Env) (m : ManifestI) : Except Unit FeedLookupO :=
  match m.lookup "/" with
  | Except.error _ => Except.error ()
  | Except.ok e =>
    match decodeHexMeta (metaGet e.metadata feedMetadataEntryOwner) with
    | Except.error _ => Except.error ()
    | Except.ok owner =>
      match decodeHexMeta (metaGet e.metadata feedMetadataEntryTopic) with
      | Except.error _ => Except.error ()
      | Except.ok topic =>
        match feedTypeMeta (metaGet e.metadata feedMetadataEntryType) with
        | Except.error _ => Except.error ()
        | Except.ok t =>
          if owner.length = 0 ∨ topic.length = 0 then Except.error ()
          else env.newLookup t { topic := topic, owner := bytesToAddress owner }

/-! ## Path resolution inside a loaded manifest (bzz.go lines 351-433) -/

/-- Function `manifestMetadataLoad` (bzz.go lines 488-504): value of `metadataKey` in
the metadata of the entry at `p`, if both exist. -/
def manifestMetadataLoad (m : ManifestI) (p metadataKey : String) : Option String :=
  match m.lookup p with
  | Except.error _ => none
  | Except.ok me => metaLookup me.metadata metadataKey

/-- Function `downloadHandler` (bzz.go lines 458-483): open the joiner, then serve with
an ETag equal to the quoted reference exactly when `etag` is set. -/
def downloadHandler (env : Env) (reference : Reference) (etag : Bool)
    (feedIndex : Option String) : DResponse :=
  match env.joinerOpen reference with
  | Except.error JoinErr.notFound => DResponse.notFoundNil
  | Except.error JoinErr.other => DResponse.internalError "joiner failed"
  | Except.ok l =>
    DResponse.served reference (if etag then some (quoteStr reference.toHex) else none)
      feedIndex l

/-- Function `serveManifestEntry` (bzz.go lines 436-455): serve the entry's reference
(the content-type/disposition headers it also sets are not modelled). -/
def serveManifestEntry (env : Env) (e : Entry) (etag : Bool)
    (feedIndex : Option String) : DResponse :=
  downloadHandler env e.reference etag feedIndex

/-- Fallback (c) (bzz.go lines 411-425): serve the configured error document
when it exists and differs from the requested path, else fail with
`"path address not found"`. -/
def servePathErrorDocFallback (env : Env) (m : ManifestI) (pathVar : String)
    (feedDereferenced : Bool) (hdr : Option String) : DResponse :=
  match manifestMetadataLoad m rootPath websiteErrorDocumentPathKey with
  | some errorDocumentPath =>
    if pathVar ≠ errorDocumentPath then
      match m.lookup errorDocumentPath with
      | Except.ok e => serveManifestEntry env e (!feedDereferenced) hdr
      | Except.error _ => DResponse.notFoundMsg "path address not found"
    else DResponse.notFoundMsg "path address not found"
  | none => DResponse.notFoundMsg "path address not found"

/-- Fallback (b) (bzz.go lines 395-409): when an index document suffix is
configured and the path does not already end with it, try
`path.Join(pathVar, suffix)`. -/
def servePathIndexFallback (env : Env) (m : ManifestI) (pathVar : String)
    (feedDereferenced : Bool) (hdr : Option String) : DResponse :=
  match manifestMetadataLoad m rootPath websiteIndexDocumentSuffixKey with
  | some indexDocumentSuffixKey =>
    if strEndsWith pathVar indexDocumentSuffixKey = false then
      match m.lookup (pathJoin pathVar indexDocumentSuffixKey) with
      | Except.ok e => serveManifestEntry env e (!feedDereferenced) hdr
      | Except.error _ => servePathErrorDocFallback env m pathVar feedDereferenced hdr
    else servePathErrorDocFallback env m pathVar feedDereferenced hdr
  | none => servePathErrorDocFallback env m pathVar feedDereferenced hdr

/-- Fallbacks after `manifest.ErrNotFound` (bzz.go lines 376-425), starting
with (a): the directory-redirect check for paths without a leading slash. -/
def servePathNotFoundFallback (env : Env) (m : ManifestI) (pathVar : String)
    (feedDereferenced : Bool) (hdr : Option String) (urlPath : String) : DResponse :=
  if strStartsWith pathVar "/" = false then
    match m.hasPrefixFn (pathVar ++ "/") with
    | Except.ok true => DResponse.redirect (urlPath ++ "/")
    | _ => servePathIndexFallback env m pathVar feedDereferenced hdr
  else servePathIndexFallback env m pathVar feedDereferenced hdr

/-- Path resolution on a loaded manifest (bzz.go lines 351-433): the empty
path is served through the root index document metadata; otherwise exact
lookup, with the not-found fallback chain on `manifest.ErrNotFound` and a
plain not-found on any other lookup error. -/
def servePath (env : Env) (m : ManifestI) (pathVar : String)
    (feedDereferenced : Bool) (hdr : Option String) (urlPath : String) : DResponse :=
  if pathVar = "" then
    match manifestMetadataLoad m rootPath websiteIndexDocumentSuffixKey with
    | some indexDocumentSuffixKey =>
      match m.lookup (pathJoin pathVar indexDocumentSuffixKey) with
      | Except.ok e => serveManifestEntry env e (!feedDereferenced) hdr
      | Except.error _ => DResponse.notFoundMsg "address not found or incorrect"
    | none => DResponse.notFoundMsg "address not found or incorrect"
  else
    match m.lookup pathVar with
    | Except.ok me => serveManifestEntry env me (!feedDereferenced) hdr
    | Except.error e =>
      if e = LookupErr.notFound then
        servePathNotFoundFallback env m pathVar feedDereferenced hdr urlPath
      else DResponse.notFoundNil

/-! ## The FETCH loop (`serveReference`, bzz.go lines 283-434)

The Go code expresses the manifest/feed disambiguation with a `goto FETCH`
loop guarded by `feedDereferenced`; since the guard admits at most one
back-jump, the loop is embedded as structural recursion on a fuel that the
top-level entry point fixes at 2 (the fuel-exhausted branch is unreachable, see
`fetchLoop_fuel_irrelevant`). -/

def fetchLoop (env : Env) (pathVar urlPath : String) :
    Nat → Reference → Bool → Option String → DResponse
  | 0, _, _, _ => DResponse.notFoundNil
  | fuel + 1, address, feedDereferenced, hdr =>
    match env.loadManifest address with
    | none => DResponse.notFoundNil
    | some m =>
      if feedDereferenced = false then
        match manifestFeed env m with
        | Except.error _ => servePath env m pathVar feedDereferenced hdr urlPath
        | Except.ok l =>
          match l.atResult with
          | Except.error _ => DResponse.notFoundMsg "feed not found"
          | Except.ok (none, _) => DResponse.notFoundMsg "no update found"
          | Except.ok (some ch, cur) =>
            match env.parseFeedUpdate ch with
            | Except.error _ => DResponse.internalError "mapStructure feed update"
            | Except.ok (ref, _) =>
              match env.marshalBinary cur with
              | Except.error _ => DResponse.internalError "marshal index"
              | Except.ok curBytes =>
                fetchLoop env pathVar urlPath fuel ref true
                  (some (String.mk (hexEncodeBytes curBytes)))
      else servePath env m pathVar feedDereferenced hdr urlPath

/-- Function `Service.serveReference`: start the FETCH loop at the requested address
with `feedDereferenced = false` and no feed index header. -/
def serveReference (env : Env) (address : Reference) (pathVar urlPath : String) : DResponse :=
  fetchLoop env pathVar urlPath 2 address false none

/-- The `bzzDownloadHandler` path normalization (bzz.go lines 276-278): a path
with trailing slashes keeps exactly one. -/
def normalizePath (p : String) : String :=
  if strEndsWith p "/" then String.mk (trimRightSlashes p.data) ++ "/" else p

/-- Function `Service.bzzDownloadHandler` (bzz.go lines 264-281): normalize the path,
then resolve. -/
def bzzDownloadHandler (env : Env) (address : Reference) (p urlPath : String) : DResponse :=
  serveReference env address (normalizePath p) urlPath

/-! ## Upload coordinator (`fileUploadHandler`, bzz.go lines 82-262) -/

/-- Result of `s.getOrCreateTag(header)`: the tag's id, its total-chunk
counter as retrieved, and whether this request created it. -/
structure TagInfo where
  uid : Nat
  initialTotal : Nat
  created : Bool
deriving DecidableEq, Repr

/-- Failure kind of tag retrieval: `tags.ErrNotFound` versus anything else. -/
inductive TagGetErr where
  | notFound
  | other
deriving DecidableEq, Repr

/-- Failure kind of the content pipeline: `postage.ErrBucketFull` versus
anything else. -/
inductive PipeErr where
  | bucketFull
  | other
deriving DecidableEq, Repr

/-- Failure kind of `manifest.NewDefaultManifest`:
`manifest.ErrInvalidManifestType` versus anything else. -/
inductive MNewErr where
  | invalidType
  | other
deriving DecidableEq, Repr

/-- Failure kind of `m.Store`: `postage.ErrBucketFull` versus anything else. -/
inductive StoreErr where
  | bucketFull
  | other
deriving DecidableEq, Repr

/-- Pure environment for one file upload request: query/header inputs and the
results of every external collaborator call, in program order.

* `queryName` — the `name` query parameter (`""` when absent);
* `tagGet` — `s.getOrCreateTag(r.Header.Get(SwarmTagHeader))`;
* `estimatedChunks` — `requestCalculateNumberOfChunks(r)` (repository code
  outside `src/`; modelled from the spec as the request-size estimate derived
  from the content-length header, `0` when unknown);
* `pipelineStore` — `p(ctx, r.Body)`, the content reference from the split;
* `contentType`, `encrypt`, `pinRequested` — further request inputs
  (`encrypt` only selects the pipeline/chunk-count variants, both of which are
  uninterpreted here);
* `newManifest`, `addRoot`, `addFile`, `manifestStore` — the manifest build;
* `storedNodeSizes` — the `dataSize` arguments the manifest store passes to
  each registered `StoreSizeFunc` while persisting trie nodes;
* `chunksFor` — `calculateNumberOfChunks(dataSize, encrypt)` (repository code
  outside `src/`; modelled from the spec as the chunk count a node of the
  given size requires);
* `doneSplit`, `pinCreate`, `waitResult` — the tail collaborator calls. -/
structure UEnv where
  queryName : String
  tagGet : Except TagGetErr TagInfo
  estimatedChunks : Nat
  pipelineStore : Except PipeErr Reference
  contentType : String
  encrypt : Bool
  newManifest : Except MNewErr Unit
  addRoot : Except Unit Unit
  addFile : Except Unit Unit
  manifestStore : Except StoreErr Reference
  storedNodeSizes : List Nat
  chunksFor : Nat → Nat
  doneSplit : Except Unit Unit
  pinRequested : Bool
  pinCreate : Except Unit Unit
  waitResult : Except Unit Unit

/-- The observable HTTP outcome of one upload request (`jsonhttp` responses;
`created` carries the 201 body reference, the quoted ETag and the tag id
header). -/
inductive UResponse where
  | badRequest (msg : String)
  | notFound (msg : String)
  | internalError (msg : String)
  | internalErrorNil
  | paymentRequired (msg : String)
  | created (reference : Reference) (etag : String) (tagUid : Nat)
deriving DecidableEq, Repr

/-- Whether a response is the 201 success. -/
def UResponse.isCreated : UResponse → Bool
  | UResponse.created _ _ _ => true
  | _ => false

/-- Tag-visible and manifest-visible effects of one upload request, threaded
through the handler:

* `tagTotal` — the tag's total-chunk counter;
* `estimateIncrements` — the `tag.IncN(TotalChunks, estimate)` calls made
  before the split;
* `callbackRegistered` — whether a `StoreSizeFunc` was passed to `m.Store`;
* `callbackIncrements` — the `tag.IncN` calls made by that callback;
* `doneSplitCalls` — the references passed to `tag.DoneSplit`;
* `manifestAdds` — the `(path, entry)` pairs added to the manifest. -/
structure UState where
  tagTotal : Nat
  estimateIncrements : List Nat
  callbackRegistered : Bool
  callbackIncrements : List Nat
  doneSplitCalls : List Reference
  manifestAdds : List (String × Entry)
deriving DecidableEq, Repr

/-- The state before any tag is known. -/
def uStateEmpty : UState :=
  { tagTotal := 0, estimateIncrements := [], callbackRegistered := false,
    callbackIncrements := [], doneSplitCalls := [], manifestAdds := [] }

/-- One `StoreSizeFunc` invocation (bzz.go lines 205-213): increment the tag
by the chunks the persisted node required, when positive. -/
def applyStoreSizeCallback (env : UEnv) (s : UState) (dataSize : Nat) : UState :=
  let c := env.chunksFor dataSize
  if 0 < c then
    { s with tagTotal := s.tagTotal + c, callbackIncrements := s.callbackIncrements ++ [c] }
  else s

/-- Tail of the handler after `DoneSplit` (bzz.go lines 240-261): optional pin
creation, then the `wait()` durability gate, then the 201 response. -/
def uploadFinish (env : UEnv) (tagUid : Nat) (manifestReference : Reference)
    (st : UState) : UResponse × UState :=
  if env.pinRequested then
    match env.pinCreate with
    | Except.error _ => (UResponse.internalError "create pin failed", st)
    | Except.ok _ =>
      match env.waitResult with
      | Except.error _ => (UResponse.internalError "sync chunks failed", st)
      | Except.ok _ =>
        (UResponse.created manifestReference (quoteStr manifestReference.toHex) tagUid, st)
  else
    match env.waitResult with
    | Except.error _ => (UResponse.internalError "sync chunks failed", st)
    | Except.ok _ =>
      (UResponse.created manifestReference (quoteStr manifestReference.toHex) tagUid, st)

/-- Function `Service.fileUploadHandler` (bzz.go lines 82-262), in program order:
query validation, tag resolution, the pre-split estimate increment for
client-supplied tags, the pipeline split, name defaulting and validation,
manifest build, size-callback registration for client-supplied tags, manifest
persistence, `DoneSplit` for request-created tags, pinning, and the `wait()`
gate.  The tag counter operations are modelled as pure state updates (the Go
`IncN` failure inside the store callback aborts `m.Store` and is covered by
its error result; the partially-applied callback state on a failed store is
not observable through any claim and is not modelled). -/
def fileUploadHandler (env : UEnv) : UResponse × UState :=
  if strStartsWith env.queryName "/" then
    (UResponse.badRequest "invalid query params", uStateEmpty)
  else
    match env.tagGet with
    | Except.error TagGetErr.notFound => (UResponse.notFound "tag not found", uStateEmpty)
    | Except.error TagGetErr.other =>
      (UResponse.internalError "cannot get or create tag", uStateEmpty)
    | Except.ok tag =>
      let st0 : UState := { uStateEmpty with tagTotal := tag.initialTotal }
      let st1 : UState :=
        if tag.created = false ∧ 0 < env.estimatedChunks then
          { st0 with tagTotal := st0.tagTotal + env.estimatedChunks,
                     estimateIncrements := [env.estimatedChunks] }
        else st0
      match env.pipelineStore with
      | Except.error PipeErr.bucketFull => (UResponse.paymentRequired "batch is overissued", st1)
      | Except.error PipeErr.other => (UResponse.internalError "file store", st1)
      | Except.ok fr =>
        let fileName := if env.queryName = "" then fr.toHex else env.queryName
        if env.queryName = "" ∧ strStartsWith fileName "/" then
          (UResponse.badRequest "invalid body params", st1)
        else
          match env.newManifest with
          | Except.error MNewErr.invalidType =>
            (UResponse.badRequest "create manifest failed", st1)
          | Except.error MNewErr.other => (UResponse.internalErrorNil, st1)
          | Except.ok _ =>
            let rootEntry : Entry :=
              { reference := zeroAddress,
                metadata := [(websiteIndexDocumentSuffixKey, fileName)] }
            match env.addRoot with
            | Except.error _ => (UResponse.internalError "add metadata failed", st1)
            | Except.ok _ =>
              let st2 := { st1 with manifestAdds := st1.manifestAdds ++ [(rootPath, rootEntry)] }
              let fileEntry : Entry :=
                { reference := fr,
                  metadata := [(entryMetadataContentTypeKey, env.contentType),
                               (entryMetadataFilenameKey, fileName)] }
              match env.addFile with
              | Except.error _ => (UResponse.internalError "add file failed", st2)
              | Except.ok _ =>
                let st3 := { st2 with manifestAdds := st2.manifestAdds ++ [(fileName, fileEntry)] }
                let st4 :=
                  if tag.created = false then { st3 with callbackRegistered := true } else st3
                match env.manifestStore with
                | Except.error StoreErr.bucketFull =>
                  (UResponse.paymentRequired "batch is overissued", st4)
                | Except.error StoreErr.other =>
                  (UResponse.internalError "manifest store failed", st4)
                | Except.ok manifestReference =>
                  let st5 :=
                    if st4.callbackRegistered then
                      env.storedNodeSizes.foldl (applyStoreSizeCallback env) st4
                    else st4
                  if tag.created then
                    let st6 :=
                      { st5 with doneSplitCalls := st5.doneSplitCalls ++ [manifestReference] }
                    match env.doneSplit with
                    | Except.error _ => (UResponse.internalError "done split failed", st6)
                    | Except.ok _ => uploadFinish env tag.uid manifestReference st6
                  else uploadFinish env tag.uid manifestReference st5

/-! ## Spec-side statement of the not-found fallback chain

`fallbackSpec` is written from the words of the specification ("apply, in
order, stopping at the first success"), independently of the Go control flow:
each fallback is an `Option DResponse` and the chain takes the first `some`. -/

/-- Spec fallback (a): for a path without a leading separator whose trailing
slash variant exists as a directory prefix, a permanent-redirect signal. -/
def tryDirRedirect (m : ManifestI) (pathVar urlPath : String) : Option DResponse :=
  if strStartsWith pathVar "/" = false then
    match m.hasPrefixFn (pathVar ++ "/") with
    | Except.ok true => some (DResponse.redirect (urlPath ++ "/"))
    | _ => none
  else none

/-- Spec fallback (b): when an index document suffix is configured and the
path does not already end with it, the entry at `join(path, suffix)` if it
resolves. -/
def tryIndexSuffix (env : Env) (m : ManifestI) (pathVar : String)
    (feedDereferenced : Bool) (hdr : Option String) : Option DResponse :=
  match manifestMetadataLoad m rootPath websiteIndexDocumentSuffixKey with
  | some suffix =>
    if strEndsWith pathVar suffix = false then
      match m.lookup (pathJoin pathVar suffix) with
      | Except.ok e => some (serveManifestEntry env e (!feedDereferenced) hdr)
      | Except.error _ => none
    else none
  | none => none

/-- Spec fallback (c): when an error document path is configured and differs
from the requested path, its entry if it resolves. -/
def tryErrorDoc (env : Env) (m : ManifestI) (pathVar : String)
    (feedDereferenced : Bool) (hdr : Option String) : Option DResponse :=
  match manifestMetadataLoad m rootPath websiteErrorDocumentPathKey with
  | some errorDocumentPath =>
    if pathVar ≠ errorDocumentPath then
      match m.lookup errorDocumentPath with
      | Except.ok e => some (serveManifestEntry env e (!feedDereferenced) hdr)
      | Except.error _ => none
    else none
  | none => none

/-- The claimed fallback policy: (a), then (b), then (c), stopping at the
first success, and otherwise (d) not-found `"path address not found"`. -/
def fallbackSpec (env : Env) (m : ManifestI) (pathVar : String)
    (feedDereferenced : Bool) (hdr : Option String) (urlPath : String) : DResponse :=
  match tryDirRedirect m pathVar urlPath with
  | some r => r
  | none =>
    match tryIndexSuffix env m pathVar feedDereferenced hdr with
    | some r => r
    | none =>
      match tryErrorDoc env m pathVar feedDereferenced hdr with
      | some r => r
      | none => DResponse.notFoundMsg "path address not found"

/-! ## Concrete test fixtures

Small closed environments used by the witness theorems: a feed-shaped
manifest (whose feed target is again feed-shaped), and a plain website
manifest with an index document, an error document and a directory prefix. -/

/-- Address of the feed-shaped manifest. -/
def refFeedRoot : Reference := ⟨[1]⟩

/-- The feed update's target address. -/
def refTarget : Reference := ⟨[2]⟩

/-- Address of the plain website manifest. -/
def refSite : Reference := ⟨[3]⟩

/-- A terminal content entry. -/
def contentEntry : Entry := ⟨⟨[9]⟩, [(entryMetadataFilenameKey, "file.txt")]⟩

/-- The error-document entry of the website manifest. -/
def errorEntry : Entry := ⟨⟨[8]⟩, []⟩

/-- Root entry of the website manifest: index and error documents configured. -/
def siteRootEntry : Entry :=
  ⟨zeroAddress, [(websiteIndexDocumentSuffixKey, "index.html"),
                 (websiteErrorDocumentPathKey, "error.html")]⟩

/-- Root entry carrying feed owner/topic metadata. -/
def feedRootEntry : Entry :=
  ⟨zeroAddress, [(feedMetadataEntryOwner, "aa"), (feedMetadataEntryTopic, "bb")]⟩

/-- A manifest that is feed-shaped at the root and also carries a content
entry at `"x"`. -/
def mFeedBoth : ManifestI :=
  { lookup := fun p =>
      if p = "/" then Except.ok feedRootEntry
      else if p = "x" then Except.ok contentEntry
      else Except.error LookupErr.notFound,
    hasPrefixFn := fun _ => Except.ok false }

/-- The plain website manifest: root metadata, an index document, a content
entry at `"x"`, an error document, and a directory at `"foo/"`. -/
def mSite : ManifestI :=
  { lookup := fun p =>
      if p = "/" then Except.ok siteRootEntry
      else if p = "index.html" then Except.ok contentEntry
      else if p = "x" then Except.ok contentEntry
      else if p = "error.html" then Except.ok errorEntry
      else Except.error LookupErr.notFound,
    hasPrefixFn := fun p => Except.ok (decide (p = "foo/")) }

/-- Base download environment: the feed lookup finds an update `[5]` with
cursor `[7]`, decoding `[5]` yields `refTarget`. -/
def envBase : Env :=
  { loadManifest := fun r =>
      if r = refFeedRoot then some mFeedBoth
      else if r = refTarget then some mFeedBoth
      else if r = refSite then some mSite
      else none,
    newLookup := fun _ _ => Except.ok ⟨Except.ok (some [5], [7])⟩,
    parseFeedUpdate := fun ch => if ch = [5] then Except.ok (refTarget, 0) else Except.error (),
    marshalBinary := fun cur => Except.ok cur,
    joinerOpen := fun _ => Except.ok 42 }

/-- Download environment whose feed lookup itself fails. -/
def envAtErr : Env := { envBase with newLookup := fun _ _ => Except.ok ⟨Except.error ()⟩ }

/-- Download environment whose feed lookup returns no update chunk. -/
def envNoUpdate : Env :=
  { envBase with newLookup := fun _ _ => Except.ok ⟨Except.ok (none, [7])⟩ }

/-- Download environment whose feed update payload fails to decode. -/
def envParseErr : Env := { envBase with parseFeedUpdate := fun _ => Except.error () }

/-- A fully successful upload environment with a request-created tag. -/
def uenvCreated : UEnv :=
  { queryName := "", tagGet := Except.ok ⟨7, 10, true⟩, estimatedChunks := 4,
    pipelineStore := Except.ok ⟨[9]⟩, contentType := "text/plain", encrypt := false,
    newManifest := Except.ok (), addRoot := Except.ok (), addFile := Except.ok (),
    manifestStore := Except.ok ⟨[5]⟩, storedNodeSizes := [100, 200],
    chunksFor := fun d => d / 100, doneSplit := Except.ok (), pinRequested := false,
    pinCreate := Except.ok (), waitResult := Except.ok () }

/-- The same upload with a client-supplied (pre-existing) tag. -/
def uenvExisting : UEnv := { uenvCreated with tagGet := Except.ok ⟨7, 10, false⟩ }

/-- The same upload with a failing `wait()`. -/
def uenvWaitFail : UEnv := { uenvCreated with waitResult := Except.error () }

/-! ## Helper lemmas -/

lemma hexDigit_ne_slash : ∀ n, n < 16 → hexDigit n ≠ '/' := by decide

/-- A hex-encoded reference never starts with a path separator: the first
character is a hex digit. -/
lemma toHex_not_slash (r : Reference) : strStartsWith r.toHex "/" = false := by
  obtain ⟨bs⟩ := r
  cases bs with
  | nil => rfl
  | cons b rest =>
    have hne : hexDigit (b % 256 / 16) ≠ '/' :=
      hexDigit_ne_slash (b % 256 / 16) (by omega)
    show listStartsWith ('/' :: [])
      (hexDigit (b % 256 / 16) :: hexDigit (b % 16) :: hexEncodeBytes rest) = false
    simp [listStartsWith, Ne.symm hne]

lemma takeWhile_dropWhile_self {α : Type} (q : α → Bool) (l : List α) :
    (l.dropWhile q).takeWhile q = [] := by
  induction l with
  | nil => simp
  | cons c t ih =>
    by_cases h : q c
    · simpa [List.dropWhile, h] using ih
    · simp [List.dropWhile, List.takeWhile, h]

lemma str_data_append (a b : String) : (a ++ b).data = a.data ++ b.data := rfl

lemma strStartsWith_nil_slash : strStartsWith "" "/" = false := rfl

/-- The error-document fallback agrees with its spec-side statement. -/
lemma errorDocFallback_eq_spec (env : Env) (m : ManifestI) (pathVar : String)
    (fd : Bool) (hdr : Option String) :
    servePathErrorDocFallback env m pathVar fd hdr =
      (match tryErrorDoc env m pathVar fd hdr with
       | some r => r
       | none => DResponse.notFoundMsg "path address not found") := by
  unfold servePathErrorDocFallback tryErrorDoc
  cases manifestMetadataLoad m rootPath websiteErrorDocumentPathKey with
  | none => rfl
  | some ed =>
    by_cases hne : pathVar ≠ ed
    · simp only [if_pos hne]
      cases m.lookup ed <;> rfl
    · simp only [if_neg hne]

/-- The index-suffix fallback chained with the error-document fallback agrees
with its spec-side statement. -/
lemma indexFallback_eq_spec (env : Env) (m : ManifestI) (pathVar : String)
    (fd : Bool) (hdr : Option String) :
    servePathIndexFallback env m pathVar fd hdr =
      (match tryIndexSuffix env m pathVar fd hdr with
       | some r => r
       | none =>
         match tryErrorDoc env m pathVar fd hdr with
         | some r => r
         | none => DResponse.notFoundMsg "path address not found") := by
  unfold servePathIndexFallback tryIndexSuffix
  cases manifestMetadataLoad m rootPath websiteIndexDocumentSuffixKey with
  | none => exact errorDocFallback_eq_spec env m pathVar fd hdr
  | some suffix =>
    by_cases hs : strEndsWith pathVar suffix = false
    · simp only [if_pos hs]
      cases m.lookup (pathJoin pathVar suffix) with
      | ok e => rfl
      | error _ => exact errorDocFallback_eq_spec env m pathVar fd hdr
    · simp only [if_neg hs]
      exact errorDocFallback_eq_spec env m pathVar fd hdr

/-- The complete not-found fallback chain of the code agrees with the
spec-side `fallbackSpec`. -/
lemma notFoundFallback_eq_spec (env : Env) (m : ManifestI) (pathVar : String)
    (fd : Bool) (hdr : Option String) (urlPath : String) :
    servePathNotFoundFallback env m pathVar fd hdr urlPath =
      fallbackSpec env m pathVar fd hdr urlPath := by
  unfold servePathNotFoundFallback fallbackSpec tryDirRedirect
  by_cases hp : strStartsWith pathVar "/" = false
  · simp only [if_pos hp]
    cases hpre : m.hasPrefixFn (pathVar ++ "/") with
    | ok b =>
      cases b with
      | true => rfl
      | false => exact indexFallback_eq_spec env m pathVar fd hdr
    | error _ => exact indexFallback_eq_spec env m pathVar fd hdr
  · simp only [if_neg hp]
    exact indexFallback_eq_spec env m pathVar fd hdr

/-- Fuel at least 2 determines the FETCH loop's value: the flag guard admits
at most one back-jump, so the fuel-exhausted branch is unreachable from
`serveReference`. -/
lemma fetchLoop_fuel_irrelevant (env : Env) (pathVar urlPath : String)
    (n k : Nat) (address : Reference) (fd : Bool) (hdr : Option String) :
    fetchLoop env pathVar urlPath (n + 2) address fd hdr =
      fetchLoop env pathVar urlPath (k + 2) address fd hdr := by
  rfl

/-- Function `uploadFinish` never changes the threaded state. -/
lemma uploadFinish_snd (env : UEnv) (uid : Nat) (mref : Reference) (st : UState) :
    (uploadFinish env uid mref st).2 = st := by
  unfold uploadFinish
  cases env.pinRequested <;> cases env.pinCreate <;> cases env.waitResult <;> simp

/-- Closed form of the store-size callback fold: the tag total grows by the
chunk count of every persisted node, and each positive count is recorded. -/
lemma foldl_storeSizeCallback (env : UEnv) :
    ∀ (l : List Nat) (s : UState),
      l.foldl (applyStoreSizeCallback env) s =
        { s with tagTotal := s.tagTotal + (l.map env.chunksFor).sum,
                 callbackIncrements :=
                   s.callbackIncrements ++
                     (l.map env.chunksFor).filter (fun c => decide (0 < c)) } := by
  intro l
  induction l with
  | nil => intro s; simp
  | cons d rest ih =>
    intro s
    rw [List.foldl_cons, ih]
    by_cases h : 0 < env.chunksFor d
    · simp [applyStoreSizeCallback, h, Nat.add_assoc]
    · have hz : env.chunksFor d = 0 := Nat.eq_zero_of_not_pos h
      simp [applyStoreSizeCallback, h, hz]

/-- When `wait()` fails, the tail of the handler cannot answer 201. -/
lemma uploadFinish_not_created_of_wait_error (env : UEnv) (uid : Nat)
    (mref : Reference) (st : UState) (hw : env.waitResult = Except.error ()) :
    (uploadFinish env uid mref st).1.isCreated = false := by
  unfold uploadFinish
  cases env.pinRequested with
  | false => simp [hw, UResponse.isCreated]
  | true =>
    cases env.pinCreate with
    | error e => rfl
    | ok u => simp [hw, UResponse.isCreated]

/-- When `wait()` fails, no branch of the upload handler produces the 201
response. -/
lemma fileUploadHandler_not_created_of_wait_error (env : UEnv)
    (hw : env.waitResult = Except.error ()) :
    (fileUploadHandler env).1.isCreated = false := by
  unfold fileUploadHandler
  by_cases h1 : strStartsWith env.queryName "/" = true
  · rw [if_pos h1]
    rfl
  · rw [if_neg h1]
    cases env.tagGet with
    | error e => cases e <;> rfl
    | ok tag =>
      cases env.pipelineStore with
      | error e => cases e <;> rfl
      | ok fr =>
        dsimp only
        by_cases h2 : env.queryName = "" ∧
            strStartsWith (if env.queryName = "" then fr.toHex else env.queryName) "/" = true
        · rw [if_pos h2]
          rfl
        · rw [if_neg h2]
          cases env.newManifest with
          | error e => cases e <;> rfl
          | ok u =>
            cases env.addRoot with
            | error e => rfl
            | ok u2 =>
              cases env.addFile with
              | error e => rfl
              | ok u3 =>
                cases env.manifestStore with
                | error e => cases e <;> rfl
                | ok mref =>
                  cases tag.created with
                  | false => exact uploadFinish_not_created_of_wait_error env tag.uid mref _ hw
                  | true =>
                    cases env.doneSplit with
                    | error e => rfl
                    | ok u4 =>
                      exact uploadFinish_not_created_of_wait_error env tag.uid mref _ hw

/-! ## Claims about the download resolver -/

/-- Claim C1: a feed is dereferenced at most once per request.  After the
first dereference flips `feedDereferenced`, the update's target is loaded and
handed to plain path resolution (`servePath`); feed detection is not attempted
again even though the second manifest is itself feed-shaped (hypothesis `h7`:
its own feed detection would succeed). -/
theorem c1_feed_dereferenced_once (env : Env) (addr : Reference) (pathVar urlPath : String)
    (m : ManifestI) (l : FeedLookupO) (ch : Chunk) (cur : Cursor) (ref : Reference) (ts : Int)
    (curBytes : List Nat) (m2 : ManifestI) (l2 : FeedLookupO)
    (h1 : env.loadManifest addr = some m)
    (h2 : manifestFeed env m = Except.ok l)
    (h3 : l.atResult = Except.ok (some ch, cur))
    (h4 : env.parseFeedUpdate ch = Except.ok (ref, ts))
    (h5 : env.marshalBinary cur = Except.ok curBytes)
    (h6 : env.loadManifest ref = some m2)
    (h7 : manifestFeed env m2 = Except.ok l2) :
    manifestFeed env m2 = Except.ok l2 ∧
      serveReference env addr pathVar urlPath =
        servePath env m2 pathVar true (some (String.mk (hexEncodeBytes curBytes))) urlPath := by
  refine ⟨h7, ?_⟩
  simp [serveReference, fetchLoop, h1, h2, h3, h4, h5, h6]

theorem c1_witness :
    serveReference envBase refFeedRoot "x" "/u/x" =
      servePath envBase mFeedBoth "x" true (some (String.mk (hexEncodeBytes [7]))) "/u/x" :=
  (c1_feed_dereferenced_once envBase refFeedRoot "x" "/u/x" mFeedBoth
      ⟨Except.ok (some [5], [7])⟩ [5] [7] refTarget 0 [7] mFeedBoth
      ⟨Except.ok (some [5], [7])⟩ rfl rfl rfl rfl rfl rfl rfl).2

/-- Claim C2: for a non-empty path whose exact lookup is `ErrNotFound`, the
resolver's behaviour equals the spec-side ordered fallback chain
`fallbackSpec`: (a) directory redirect, (b) index suffix, (c) error document,
(d) not-found `"path address not found"`, stopping at the first success. -/
theorem c2_notfound_fallback_order (env : Env) (m : ManifestI) (pathVar : String)
    (fd : Bool) (hdr : Option String) (urlPath : String)
    (hne : pathVar ≠ "")
    (hlk : m.lookup pathVar = Except.error LookupErr.notFound) :
    servePath env m pathVar fd hdr urlPath = fallbackSpec env m pathVar fd hdr urlPath := by
  unfold servePath
  rw [if_neg hne, hlk]
  exact notFoundFallback_eq_spec env m pathVar fd hdr urlPath

theorem c2_witness :
    servePath envBase mSite "foo" false none "/u/foo" = DResponse.redirect "/u/foo/" :=
  (c2_notfound_fallback_order envBase mSite "foo" false none "/u/foo"
    (by decide) rfl).trans rfl

/-- Claim C3: for the empty path, the resolver reads the root
index-document-suffix metadata and looks up the suffix joined to the empty
path; a missing key or a failing joined lookup yields not-found
`"address not found or incorrect"`, a successful one serves that entry. -/
theorem c3_empty_path_resolution (env : Env) (m : ManifestI) (fd : Bool)
    (hdr : Option String) (urlPath : String) :
    (manifestMetadataLoad m rootPath websiteIndexDocumentSuffixKey = none →
       servePath env m "" fd hdr urlPath =
         DResponse.notFoundMsg "address not found or incorrect") ∧
    (∀ s, manifestMetadataLoad m rootPath websiteIndexDocumentSuffixKey = some s →
       (∀ e, m.lookup (pathJoin "" s) = Except.ok e →
          servePath env m "" fd hdr urlPath = serveManifestEntry env e (!fd) hdr) ∧
       (∀ er, m.lookup (pathJoin "" s) = Except.error er →
          servePath env m "" fd hdr urlPath =
            DResponse.notFoundMsg "address not found or incorrect")) := by
  refine ⟨?_, ?_⟩
  · intro h
    simp [servePath, h]
  · intro s hs
    refine ⟨?_, ?_⟩
    · intro e he
      simp [servePath, hs, he]
    · intro er her
      simp [servePath, hs, her]

theorem c3_witness :
    servePath envBase mSite "" false none "/u" = serveManifestEntry envBase contentEntry true none :=
  ((c3_empty_path_resolution envBase mSite false none "/u").2 "index.html" rfl).1
    contentEntry rfl

/-- Claim C6: a direct (non-feed) download serves with an ETag equal to the
quoted terminal content reference and no feed index header; a feed-resolved
download serves with no ETag and the feed index header set to the hex encoding
of the update's index marker. -/
theorem c6_etag_and_feed_index (env : Env) (addr : Reference) (pathVar urlPath : String)
    (hne : pathVar ≠ "") :
    (∀ m e len, env.loadManifest addr = some m → manifestFeed env m = Except.error () →
       m.lookup pathVar = Except.ok e → env.joinerOpen e.reference = Except.ok len →
       serveReference env addr pathVar urlPath =
         DResponse.served e.reference (some (quoteStr e.reference.toHex)) none len) ∧
    (∀ m l ch cur ref ts curBytes m2 e len,
       env.loadManifest addr = some m → manifestFeed env m = Except.ok l →
       l.atResult = Except.ok (some ch, cur) → env.parseFeedUpdate ch = Except.ok (ref, ts) →
       env.marshalBinary cur = Except.ok curBytes → env.loadManifest ref = some m2 →
       m2.lookup pathVar = Except.ok e → env.joinerOpen e.reference = Except.ok len →
       serveReference env addr pathVar urlPath =
         DResponse.served e.reference none (some (String.mk (hexEncodeBytes curBytes))) len) := by
  constructor
  · intro m e len h1 h2 h3 h4
    simp [serveReference, fetchLoop, h1, h2, servePath, hne, h3,
      serveManifestEntry, downloadHandler, h4]
  · intro m l ch cur ref ts curBytes m2 e len h1 h2 h3 h4 h5 h6 h7 h8
    simp [serveReference, fetchLoop, h1, h2, h3, h4, h5, h6, servePath, hne, h7,
      serveManifestEntry, downloadHandler, h8]

theorem c6_witness :
    serveReference envBase refSite "x" "/u/x" =
      DResponse.served contentEntry.reference
        (some (quoteStr contentEntry.reference.toHex)) none 42 :=
  (c6_etag_and_feed_index envBase refSite "x" "/u/x" (by decide)).1 mSite contentEntry 42
    rfl rfl rfl rfl

/-- Claim C8: during feed resolution, a failing feed lookup yields the
terminal not-found `"feed not found"`, distinct from the `"no update found"`
response of a lookup that returns no chunk; a payload that fails to decode
yields the terminal internal error (the spec's `FeedUpdateMalformed` kind,
surfaced by the code as `"mapStructure feed update"`). -/
theorem c8_feed_error_taxonomy (env : Env) (addr : Reference) (pathVar urlPath : String)
    (m : ManifestI) (l : FeedLookupO)
    (h1 : env.loadManifest addr = some m)
    (h2 : manifestFeed env m = Except.ok l) :
    (l.atResult = Except.error () →
       serveReference env addr pathVar urlPath = DResponse.notFoundMsg "feed not found") ∧
    (∀ cur, l.atResult = Except.ok (none, cur) →
       serveReference env addr pathVar urlPath = DResponse.notFoundMsg "no update found") ∧
    DResponse.notFoundMsg "feed not found" ≠ DResponse.notFoundMsg "no update found" ∧
    (∀ ch cur, l.atResult = Except.ok (some ch, cur) →
       env.parseFeedUpdate ch = Except.error () →
       serveReference env addr pathVar urlPath =
         DResponse.internalError "mapStructure feed update") := by
  refine ⟨?_, ?_, by decide, ?_⟩
  · intro h3
    simp [serveReference, fetchLoop, h1, h2, h3]
  · intro cur h3
    simp [serveReference, fetchLoop, h1, h2, h3]
  · intro ch cur h3 h4
    simp [serveReference, fetchLoop, h1, h2, h3, h4]

theorem c8_witness :
    serveReference envAtErr refFeedRoot "x" "/u" = DResponse.notFoundMsg "feed not found" :=
  (c8_feed_error_taxonomy envAtErr refFeedRoot "x" "/u" mFeedBoth
    ⟨Except.error ()⟩ rfl rfl).1 rfl

/-- Claim C9: whenever feed detection (`manifestFeed`) fails — root entry
missing, invalid hex, unrecognized type, or absent owner/topic metadata all
collapse to its error result — the error is swallowed and the loaded manifest
is handed to plain path resolution; no feed error reaches the client. -/
theorem c9_detection_failure_swallowed (env : Env) (addr : Reference)
    (pathVar urlPath : String) (m : ManifestI)
    (h1 : env.loadManifest addr = some m)
    (h2 : manifestFeed env m = Except.error ()) :
    serveReference env addr pathVar urlPath = servePath env m pathVar false none urlPath := by
  simp [serveReference, fetchLoop, h1, h2]

theorem c9_witness :
    serveReference envBase refSite "x" "/u/x" = servePath envBase mSite "x" false none "/u/x" :=
  c9_detection_failure_swallowed envBase refSite "x" "/u/x" mSite rfl rfl

/-- Claim C10: a download path ending in one or more `"/"` is normalized to
end in exactly one `"/"` (the trailing run is trimmed and a single slash
appended); a path with no trailing slash passes through unchanged. -/
theorem c10_trailing_slash_normalization (p : String) :
    (strEndsWith p "/" = true →
       (normalizePath p).data = trimRightSlashes p.data ++ ['/'] ∧
       countTrailingSlashes (normalizePath p) = 1) ∧
    (strEndsWith p "/" = false → normalizePath p = p) := by
  constructor
  · intro h
    have hnorm : normalizePath p = String.mk (trimRightSlashes p.data) ++ "/" := by
      unfold normalizePath
      rw [if_pos h]
    have hdata : (normalizePath p).data = trimRightSlashes p.data ++ ['/'] := by
      rw [hnorm]; rfl
    refine ⟨hdata, ?_⟩
    have hsl : slashP '/' = true := rfl
    unfold countTrailingSlashes
    rw [hdata, List.reverse_append]
    simp [trimRightSlashes, List.reverse_reverse, List.takeWhile_cons, hsl,
      takeWhile_dropWhile_self]
  · intro h
    simp [normalizePath, h]

theorem c10_witness :
    (normalizePath "a//").data = trimRightSlashes "a//".data ++ ['/'] ∧
      countTrailingSlashes (normalizePath "a//") = 1 :=
  (c10_trailing_slash_normalization "a//").1 rfl

/-! ## Claims about the upload coordinator -/

/-- Claim C4: tag accounting.  For a client-supplied tag (`created = false`)
the handler increments the total by the request-size estimate before the
split (no call when the estimate is zero, which leaves the counter equally
unchanged), registers the manifest-store size callback whose invocations add
each persisted node's chunk count, and never calls `DoneSplit`; for a
request-created tag (`created = true`) there is no estimate increment and no
callback, and `DoneSplit` is called exactly once with the stored manifest
reference. -/
theorem c4_tag_accounting (env : UEnv) (t : TagInfo) (fr mref : Reference)
    (hq : strStartsWith env.queryName "/" = false)
    (ht : env.tagGet = Except.ok t)
    (hp : env.pipelineStore = Except.ok fr)
    (hm : env.newManifest = Except.ok ())
    (ha : env.addRoot = Except.ok ())
    (hb : env.addFile = Except.ok ())
    (hs : env.manifestStore = Except.ok mref) :
    (t.created = false →
       (fileUploadHandler env).2.estimateIncrements =
           (if 0 < env.estimatedChunks then [env.estimatedChunks] else []) ∧
       (fileUploadHandler env).2.callbackRegistered = true ∧
       (fileUploadHandler env).2.doneSplitCalls = [] ∧
       (fileUploadHandler env).2.tagTotal =
           t.initialTotal + env.estimatedChunks +
             (env.storedNodeSizes.map env.chunksFor).sum ∧
       (fileUploadHandler env).2.callbackIncrements =
           (env.storedNodeSizes.map env.chunksFor).filter (fun c => decide (0 < c))) ∧
    (t.created = true →
       (fileUploadHandler env).2.estimateIncrements = [] ∧
       (fileUploadHandler env).2.callbackRegistered = false ∧
       (fileUploadHandler env).2.callbackIncrements = [] ∧
       (fileUploadHandler env).2.doneSplitCalls = [mref] ∧
       (fileUploadHandler env).2.tagTotal = t.initialTotal) := by
  constructor
  · intro hc
    by_cases hq0 : env.queryName = ""
    · by_cases he : 0 < env.estimatedChunks
      · simp [fileUploadHandler, strStartsWith_nil_slash, hq, ht, hp, hm, ha, hb, hs, hc, hq0, he,
          toHex_not_slash, uploadFinish_snd, foldl_storeSizeCallback, uStateEmpty,
          Nat.add_assoc]
      · have he0 : env.estimatedChunks = 0 := Nat.eq_zero_of_not_pos he
        simp [fileUploadHandler, strStartsWith_nil_slash, hq, ht, hp, hm, ha, hb, hs, hc, hq0, he,
          toHex_not_slash, uploadFinish_snd, foldl_storeSizeCallback, uStateEmpty, he0]
    · by_cases he : 0 < env.estimatedChunks
      · simp [fileUploadHandler, strStartsWith_nil_slash, hq, ht, hp, hm, ha, hb, hs, hc, hq0, he,
          uploadFinish_snd, foldl_storeSizeCallback, uStateEmpty, Nat.add_assoc]
      · have he0 : env.estimatedChunks = 0 := Nat.eq_zero_of_not_pos he
        simp [fileUploadHandler, strStartsWith_nil_slash, hq, ht, hp, hm, ha, hb, hs, hc, hq0, he,
          uploadFinish_snd, foldl_storeSizeCallback, uStateEmpty, he0]
  · intro hc
    by_cases hq0 : env.queryName = ""
    · cases hd : env.doneSplit with
      | error e =>
        simp [fileUploadHandler, strStartsWith_nil_slash, hq, ht, hp, hm, ha, hb, hs, hc, hq0, hd,
          toHex_not_slash, uploadFinish_snd, uStateEmpty]
      | ok u =>
        simp [fileUploadHandler, strStartsWith_nil_slash, hq, ht, hp, hm, ha, hb, hs, hc, hq0, hd,
          toHex_not_slash, uploadFinish_snd, uStateEmpty]
    · cases hd : env.doneSplit with
      | error e =>
        simp [fileUploadHandler, strStartsWith_nil_slash, hq, ht, hp, hm, ha, hb, hs, hc, hq0, hd,
          uploadFinish_snd, uStateEmpty]
      | ok u =>
        simp [fileUploadHandler, strStartsWith_nil_slash, hq, ht, hp, hm, ha, hb, hs, hc, hq0, hd,
          uploadFinish_snd, uStateEmpty]

theorem c4_witness :
    TagInfo.created ⟨7, 10, false⟩ = false ∧
      (fileUploadHandler uenvExisting).2.estimateIncrements = [4] ∧
      (fileUploadHandler uenvExisting).2.callbackRegistered = true ∧
      (fileUploadHandler uenvExisting).2.doneSplitCalls = [] ∧
      (fileUploadHandler uenvExisting).2.tagTotal = 17 ∧
      (fileUploadHandler uenvExisting).2.callbackIncrements = [1, 2] := by
  have h := (c4_tag_accounting uenvExisting ⟨7, 10, false⟩ ⟨[9]⟩ ⟨[5]⟩
    rfl rfl rfl rfl rfl rfl rfl).1 rfl
  refine ⟨rfl, ?_, h.2.1, h.2.2.1, ?_, ?_⟩
  · exact h.1.trans (by decide)
  · exact h.2.2.2.1.trans (by decide)
  · exact h.2.2.2.2.trans (by decide)

/-- Claim C5: the 201 response is produced only after `wait()` returned
`ok`, and a failing `wait()` on an otherwise successful upload yields the
distinct internal error `"sync chunks failed"` (never a 201). -/
theorem c5_wait_gate (env : UEnv) :
    ((fileUploadHandler env).1.isCreated = true → env.waitResult = Except.ok ()) ∧
    (∀ t fr mref, strStartsWith env.queryName "/" = false → env.tagGet = Except.ok t →
       env.pipelineStore = Except.ok fr → env.newManifest = Except.ok () →
       env.addRoot = Except.ok () → env.addFile = Except.ok () →
       env.manifestStore = Except.ok mref →
       (t.created = true → env.doneSplit = Except.ok ()) →
       (env.pinRequested = true → env.pinCreate = Except.ok ()) →
       env.waitResult = Except.error () →
       (fileUploadHandler env).1 = UResponse.internalError "sync chunks failed") := by
  constructor
  · intro h
    cases hwr : env.waitResult with
    | ok u => cases u; rfl
    | error e =>
      cases e
      rw [fileUploadHandler_not_created_of_wait_error env hwr] at h
      exact absurd h (by decide)
  · intro t fr mref hq ht hp hm ha hb hs hds hpin hw
    by_cases hq0 : env.queryName = "" <;>
      by_cases hpr : env.pinRequested = true <;>
        cases hc : t.created
    all_goals
      first
      | simp [fileUploadHandler, strStartsWith_nil_slash, uploadFinish, hq, ht, hp, hm, ha, hb, hs, hq0, hpr,
          hc, hw, hds hc, hpin hpr, toHex_not_slash]
      | simp [fileUploadHandler, strStartsWith_nil_slash, uploadFinish, hq, ht, hp, hm, ha, hb, hs, hq0, hpr,
          hc, hw, hds hc, toHex_not_slash]
      | simp [fileUploadHandler, strStartsWith_nil_slash, uploadFinish, hq, ht, hp, hm, ha, hb, hs, hq0, hpr,
          hc, hw, hpin hpr, toHex_not_slash]
      | simp [fileUploadHandler, strStartsWith_nil_slash, uploadFinish, hq, ht, hp, hm, ha, hb, hs, hq0, hpr,
          hc, hw, toHex_not_slash]

theorem c5_witness :
    (fileUploadHandler uenvWaitFail).1 = UResponse.internalError "sync chunks failed" :=
  (c5_wait_gate uenvWaitFail).2 ⟨7, 10, true⟩ ⟨[9]⟩ ⟨[5]⟩ rfl rfl rfl rfl rfl rfl rfl
    (fun _ => rfl) (fun h => absurd h (by decide)) rfl

/-- Claim C7: with no `name` query parameter the chosen name defaults to the
hex string of the content reference, which never starts with a path
separator; the stored manifest then holds a root entry whose
index-document-suffix metadata is that name and an entry at that name whose
target is the content reference and whose filename metadata is again that
name. -/
theorem c7_name_defaulting (env : UEnv) (t : TagInfo) (fr mref : Reference)
    (hq0 : env.queryName = "")
    (ht : env.tagGet = Except.ok t)
    (hp : env.pipelineStore = Except.ok fr)
    (hm : env.newManifest = Except.ok ())
    (ha : env.addRoot = Except.ok ())
    (hb : env.addFile = Except.ok ())
    (hs : env.manifestStore = Except.ok mref) :
    (fileUploadHandler env).2.manifestAdds =
        [(rootPath, ⟨zeroAddress, [(websiteIndexDocumentSuffixKey, fr.toHex)]⟩),
         (fr.toHex, ⟨fr, [(entryMetadataContentTypeKey, env.contentType),
                          (entryMetadataFilenameKey, fr.toHex)]⟩)] ∧
      strStartsWith fr.toHex "/" = false := by
  have hq : strStartsWith env.queryName "/" = false := by
    rw [hq0]; rfl
  refine ⟨?_, toHex_not_slash fr⟩
  cases hc : t.created with
  | false =>
    by_cases he : 0 < env.estimatedChunks <;>
      simp [fileUploadHandler, strStartsWith_nil_slash, hq, ht, hp, hm, ha, hb, hs, hc, hq0,
        he, toHex_not_slash, uploadFinish_snd, foldl_storeSizeCallback, uStateEmpty]
  | true =>
    cases hd : env.doneSplit with
    | error e =>
      simp [fileUploadHandler, strStartsWith_nil_slash, hq, ht, hp, hm, ha, hb, hs, hc, hq0, hd,
        toHex_not_slash, uploadFinish_snd, uStateEmpty]
    | ok u =>
      simp [fileUploadHandler, strStartsWith_nil_slash, hq, ht, hp, hm, ha, hb, hs, hc, hq0, hd,
        toHex_not_slash, uploadFinish_snd, uStateEmpty]

theorem c7_witness :
    (fileUploadHandler uenvCreated).2.manifestAdds =
        [(rootPath, ⟨zeroAddress, [(websiteIndexDocumentSuffixKey,
            Reference.toHex ⟨[9]⟩)]⟩),
         (Reference.toHex ⟨[9]⟩, ⟨⟨[9]⟩, [(entryMetadataContentTypeKey, "text/plain"),
            (entryMetadataFilenameKey, Reference.toHex ⟨[9]⟩)]⟩)] ∧
      strStartsWith (Reference.toHex ⟨[9]⟩) "/" = false :=
  c7_name_defaulting uenvCreated ⟨7, 10, true⟩ ⟨[9]⟩ ⟨[5]⟩ rfl rfl rfl rfl rfl rfl rfl

end Bee
